/-
Verification of the meme-maker sticker-pack subsystem against its
natural-language specification.

The definitions below are a shallow embedding of the Python source:
  meme_stickers/sticker_pack/{update,pack,models,hub,manager}.py and main.py.
Filesystem and network effects are made explicit as data (directory
listings, download outcomes) passed to the functions; machine behaviour
such as Python tuple comparison and `pathlib` suffix/stem handling is
reproduced faithfully.
-/

import Mathlib

namespace MemeMaker

/-! ## Python `int()` parsing and version comparison
    (`PackUpdater._compare_versions`, update.py lines 229-255) -/

/-- Is the character one of the whitespace characters Python `str.strip`
removes for ASCII input (space, tab, newline, carriage return, form feed,
vertical tab)? -/
def pyIsSpace (c : Char) : Bool :=
  c = ' ' || c = '\t' || c = '\n' || c = '\x0d' || c = '\x0c' || c = '\x0b'

/-- Digits of a Python integer literal body: ASCII digits, with single
underscores allowed between digits (as accepted by `int()` since
Python 3.6). Returns the digit value list, or `none` when malformed. -/
def pyDigits : List Char → Option (List Nat)
  | [] => none
  | [c] => if c.isDigit then some [c.toNat - 48] else none
  | c :: d :: rest =>
    if c.isDigit then
      if d = '_' then
        match rest with
        | [] => none
        | _ => (pyDigits rest).map fun ds => (c.toNat - 48) :: ds
      else
        (pyDigits (d :: rest)).map fun ds => (c.toNat - 48) :: ds
    else none

/-- Python `int(s)` on a character list: strip whitespace, optional sign,
digits. `none` models a raised `ValueError`. -/
def pyInt (s : List Char) : Option Int :=
  let chars := (s.dropWhile pyIsSpace).reverse.dropWhile pyIsSpace |>.reverse
  let signBody : Int × List Char :=
    match chars with
    | '-' :: rest => (-1, rest)
    | '+' :: rest => (1, rest)
    | _ => (1, chars)
  match pyDigits signBody.2 with
  | some ds => some (signBody.1 * (ds.foldl (fun acc d => acc * 10 + (d : Int)) 0))
  | none => none

/-- Python `s.split(".")`: splits a character list on the dot character;
the split of the empty string is `[""]`, matching Python. -/
def splitDots : List Char → List (List Char)
  | [] => [[]]
  | c :: rest =>
    if c = '.' then [] :: splitDots rest
    else
      match splitDots rest with
      | [] => [[c]]
      | p :: ps => (c :: p) :: ps

/-- Function `parse_version` inside `PackUpdater._compare_versions`: split on ".",
convert every part with `int()`; on any `ValueError` the whole version
parses as the one-element tuple `(0,)`. -/
def parse_version (v : String) : List Int :=
  let parts := (splitDots v.data).map pyInt
  if parts.all Option.isSome then parts.map (fun p => p.getD 0) else [0]

/-- Python tuple comparison on integer tuples: lexicographic, a proper
prefix is smaller. Returns -1, 0 or 1. -/
def cmpIntList : List Int → List Int → Int
  | [], [] => 0
  | [], _ :: _ => -1
  | _ :: _, [] => 1
  | a :: as_, b :: bs =>
    if a < b then -1 else if b < a then 1 else cmpIntList as_ bs

/-- Method `PackUpdater._compare_versions(v1, v2)`: positive iff
`parse_version v1 > parse_version v2` under Python tuple order. -/
def compare_versions (v1 v2 : String) : Int :=
  cmpIntList (parse_version v1) (parse_version v2)


/-! ## String ordering (Python `sorted` compares by Unicode code point) -/

/-- Lexicographic less-or-equal on character lists by code point, the
order Python string comparison uses. -/
def listLeb : List Char → List Char → Bool
  | [], _ => true
  | _ :: _, [] => false
  | c :: cs, d :: ds =>
    if c.toNat < d.toNat then true
    else if d.toNat < c.toNat then false
    else listLeb cs ds

/-- Python string `<=` lifted to Lean strings. -/
def strLeb (a b : String) : Bool :=
  listLeb a.data b.data

theorem listLeb_total (a b : List Char) : listLeb a b = true ∨ listLeb b a = true := by
  induction a generalizing b with
  | nil => exact Or.inl rfl
  | cons c cs ih =>
    cases b with
    | nil => exact Or.inr rfl
    | cons d ds =>
      by_cases h1 : c.toNat < d.toNat
      · exact Or.inl (by simp [listLeb, h1])
      · by_cases h2 : d.toNat < c.toNat
        · exact Or.inr (by simp [listLeb, h2, Nat.lt_asymm h2])
        · rcases ih ds with h | h
          · exact Or.inl (by simp [listLeb, h1, h2, h])
          · exact Or.inr (by simp [listLeb, h1, h2, h])

theorem listLeb_trans {a b c : List Char} (h1 : listLeb a b = true)
    (h2 : listLeb b c = true) : listLeb a c = true := by
  induction a generalizing b c with
  | nil => rfl
  | cons x xs ih =>
    cases b with
    | nil => simp [listLeb] at h1
    | cons y ys =>
      cases c with
      | nil => simp [listLeb] at h2
      | cons z zs =>
        simp only [listLeb] at h1 h2 ⊢
        by_cases hxy : x.toNat < y.toNat
        · by_cases hyz : y.toNat < z.toNat
          · simp [Nat.lt_trans hxy hyz]
          · by_cases hzy : z.toNat < y.toNat
            · simp [listLeb, hyz, hzy] at h2
            · have : y.toNat = z.toNat := Nat.le_antisymm (Nat.le_of_not_lt hzy) (Nat.le_of_not_lt hyz)
              simp [this ▸ hxy]
        · by_cases hyx : y.toNat < x.toNat
          · simp [hxy, hyx] at h1
          · have hxe : x.toNat = y.toNat := Nat.le_antisymm (Nat.le_of_not_lt hyx) (Nat.le_of_not_lt hxy)
            by_cases hyz : y.toNat < z.toNat
            · simp [hxe ▸ hyz]
            · by_cases hzy : z.toNat < y.toNat
              · simp [listLeb, hyz, hzy] at h2
              · simp only [hxy, if_neg, hyx, if_false] at h1
                simp only [hyz, if_neg, hzy, if_false] at h2
                have hxz : ¬ x.toNat < z.toNat := hxe ▸ hyz
                have hzx : ¬ z.toNat < x.toNat := hxe ▸ hzy
                simp [hxz, hzx, ih h1 h2]

theorem listLeb_append (p a b : List Char) :
    listLeb (p ++ a) (p ++ b) = listLeb a b := by
  induction p with
  | nil => rfl
  | cons c cs ih => simp [listLeb, ih]

/-! ## `pathlib` suffix and stem -/

/-- Model of `pathlib.PurePath.suffix` of a bare filename: the last dot-extension
including the dot; empty when the only dot is leading (hidden file) or
trailing, or when there is no dot. -/
def pySuffix (name : String) : String :=
  let rev := name.data.reverse
  let ext := rev.takeWhile (· ≠ '.')
  let rest := rev.dropWhile (· ≠ '.')
  match rest with
  | [] => ""                    -- no dot at all
  | ['.'] => ""                 -- the dot is the first character
  | _ =>
    match ext with
    | [] => ""                  -- the name ends with a dot
    | _ => String.mk ('.' :: ext.reverse)

/-- Model of `pathlib.PurePath.stem`: the filename with `pySuffix` removed. -/
def pyStem (name : String) : String :=
  String.mk (name.data.take (name.data.length - (pySuffix name).data.length))


/-- Lowercase a string character by character (`str.lower` for ASCII). -/
def lowerStr (s : String) : String :=
  String.mk (s.data.map Char.toLower)

/-! ## Data model (models.py) -/

/-- The `FileSource` enum from models.py. -/
inductive FileSource
  | localSource
  | remote
  | builtin
deriving DecidableEq, Repr

/-- Construction `FileSource(value)`: raises `ValueError` (here `none`)
for a string that is not one of the enum values. -/
def fileSourceOfString : String → Option FileSource
  | "local" => some .localSource
  | "remote" => some .remote
  | "builtin" => some .builtin
  | _ => none

/-- The `StickerInfo` dataclass from models.py. -/
structure StickerInfo where
  name : String
  path : String
  file_source : FileSource := .localSource
  created_at : Option String := none
deriving DecidableEq, Repr

/-- Parsed JSON of one entry of the `stickers` array of `metadata.json`:
every key optional, as read through `dict.get`. -/
structure StickerData where
  name : Option String := none
  path : Option String := none
  file_source : Option String := none
  created_at : Option String := none
deriving DecidableEq, Repr

/-- The `PackManifest` dataclass from models.py. -/
structure PackManifest where
  name : String
  display_name : String
  description : String
  version : String
  author : String
  enabled : Bool := true
  url : Option String := none
  checksum : Option String := none
  created_at : Option String := none
  updated_at : Option String := none
  stickers : List StickerInfo := []
deriving DecidableEq, Repr

/-- Parsed JSON object of a `metadata.json` file: every key optional,
as read through `dict.get` in `PackManifest.from_dict`. -/
structure ManifestData where
  name : Option String := none
  display_name : Option String := none
  description : Option String := none
  version : Option String := none
  author : Option String := none
  enabled : Option Bool := none
  url : Option String := none
  checksum : Option String := none
  created_at : Option String := none
  updated_at : Option String := none
  stickers : Option (List StickerData) := none
deriving DecidableEq, Repr

/-- The sticker-parsing loop of `PackManifest.from_dict`: builds
`StickerInfo` values, propagating the `ValueError` a bad `file_source`
raises. -/
def parseStickers : List StickerData → Except String (List StickerInfo)
  | [] => .ok []
  | s :: rest =>
    match fileSourceOfString (s.file_source.getD "local") with
    | none => .error ((s.file_source.getD "local") ++ " is not a valid FileSource")
    | some fs =>
      (parseStickers rest).map fun tl =>
        ⟨s.name.getD "", s.path.getD "", fs, s.created_at⟩ :: tl

/-- Method `PackManifest.from_dict` (models.py lines 79-104): defaults every
missing field; `.error` models the exception a bad sticker source raises. -/
def PackManifest.from_dict (d : ManifestData) : Except String PackManifest :=
  (parseStickers (d.stickers.getD [])).map fun sts =>
    { name := d.name.getD ""
      display_name := d.display_name.getD ""
      description := d.description.getD ""
      version := d.version.getD "1.0.0"
      author := d.author.getD "Unknown"
      enabled := d.enabled.getD true
      url := d.url
      checksum := d.checksum
      created_at := d.created_at
      updated_at := d.updated_at
      stickers := sts }

/-- State of a pack's `metadata.json` on disk: absent, unreadable or
syntactically invalid JSON, or a parsed JSON object. -/
inductive MFile
  | missing
  | invalidJson
  | parsed (d : ManifestData)
deriving DecidableEq, Repr

/-- Method `Pack.load_manifest` (pack.py lines 37-69): `PackError` (modelled as
`.error`) when the file is missing, is invalid JSON, `from_dict` raises,
or the parsed `name`/`display_name` is empty; note the in-`try`
`PackError`s are re-wrapped by the catch-all `except Exception`. -/
def load_manifest : MFile → Except String PackManifest
  | .missing => .error "Manifest not found"
  | .invalidJson => .error "Invalid manifest JSON"
  | .parsed d =>
    match PackManifest.from_dict d with
    | .error e => .error ("Failed to load manifest: " ++ e)
    | .ok m =>
      if m.name = "" then .error "Failed to load manifest: Pack name is required"
      else if m.display_name = "" then
        .error "Failed to load manifest: Pack display_name is required"
      else .ok m

/-! ## Pack directory filesystem model and Pack operations (pack.py) -/

/-- One entry of a directory listing: filename, whether it is a regular
file, and its byte content when it is. -/
structure DirEntry where
  filename : String
  isFile : Bool
  content : List Nat := []
deriving DecidableEq, Repr

/-- On-disk state of one pack directory: the `metadata.json` file and the
`stickers/` subdirectory (`none` when the subdirectory does not exist). -/
structure PackDir where
  metadata : MFile
  stickersDir : Option (List DirEntry)
deriving DecidableEq, Repr

/-- Constant `Pack.SUPPORTED_FORMATS`. -/
def SUPPORTED_FORMATS : List String := [".png", ".jpg", ".jpeg", ".gif", ".webp"]

/-- Does a directory entry pass the filter of `discover_stickers` /
`get_sticker_path`: extension (lowercased) in the supported set? -/
def isImageEntry (e : DirEntry) : Bool :=
  e.isFile && SUPPORTED_FORMATS.contains (lowerStr (pySuffix e.filename))

/-- Order used by `sorted(self.stickers_dir.iterdir())`: filenames by
code point. -/
def entryLe (a b : DirEntry) : Prop :=
  strLeb a.filename b.filename = true

instance : DecidableRel entryLe := fun a b => by
  unfold entryLe; infer_instance

instance : IsTotal DirEntry entryLe :=
  ⟨fun a b => listLeb_total a.filename.data b.filename.data⟩

instance : IsTrans DirEntry entryLe :=
  ⟨fun _ _ _ h1 h2 => listLeb_trans h1 h2⟩

/-- Method `Pack.discover_stickers` (pack.py lines 71-92): empty when the
`stickers/` subdirectory is absent; otherwise regular files with a
supported extension, in sorted filename order, as `StickerInfo` with the
file stem as name and the pack-relative path. -/
def discover_stickers (p : PackDir) : List StickerInfo :=
  match p.stickersDir with
  | none => []
  | some entries =>
    ((entries.insertionSort entryLe).filter isImageEntry).map fun e =>
      { name := pyStem e.filename
        path := "stickers/" ++ e.filename
        file_source := .localSource
        created_at := none }

/-- Method `Pack.get_sticker_path` (pack.py lines 140-153): iterates
`self.stickers_dir.iterdir()` with no existence check, so a missing
`stickers/` directory raises `FileNotFoundError` (modelled as `.error`);
otherwise the first entry whose stem matches and whose extension is
supported, else `none`. -/
def get_sticker_path (p : PackDir) (sticker_name : String) :
    Except String (Option DirEntry) :=
  match p.stickersDir with
  | none => .error "FileNotFoundError"
  | some entries =>
    .ok (entries.find? fun e =>
      pyStem e.filename = sticker_name
        && SUPPORTED_FORMATS.contains (lowerStr (pySuffix e.filename)))

/-- Method `Pack.get_sticker_bytes` (pack.py lines 155-168): reads the resolved
file, propagating whatever `get_sticker_path` raises. -/
def get_sticker_bytes (p : PackDir) (sticker_name : String) :
    Except String (Option (List Nat)) :=
  (get_sticker_path p sticker_name).map fun r => r.map (·.content)

/-! ## Manager model (manager.py) -/

/-- The `PackState` enum. -/
inductive PackState
  | loading | loaded | installing | installed
  | updating | updated | deleting | deleted | error
deriving DecidableEq, Repr

/-- The `PackEvent` dataclass. -/
structure PackEvent where
  pack_name : String
  state : PackState
  error : Option String := none
  data : Option String := none
deriving DecidableEq, Repr

/-- One entry of the `packs/` storage-root listing seen by `reload`:
directory-entry name, whether it is a directory, and (when it is a pack
directory) its contents. -/
structure PackDirEntry where
  name : String
  isDir : Bool
  pack : PackDir
deriving DecidableEq, Repr

/-- Test `name.startswith(".")`. -/
def isDotName (s : String) : Bool :=
  match s.data with
  | '.' :: _ => true
  | _ => false

/-- Method `StickerPackManager._load_pack` (manager.py lines 112-136): emits
LOADING, then loads the manifest and discovers stickers; on success the
pack is registered (keyed by the directory name) and LOADED is emitted,
on any exception an ERROR event with the exception message is emitted
and nothing is registered — the exception never escapes. -/
def load_pack (name : String) (pd : PackDir) :
    Option PackManifest × List PackEvent :=
  match load_manifest pd.metadata with
  | .error e => (none, [⟨name, .loading, none, none⟩, ⟨name, .error, some e, none⟩])
  | .ok m =>
    (some { m with stickers := discover_stickers pd },
     [⟨name, .loading, none, none⟩, ⟨name, .loaded, none, none⟩])

/-- The directory scan of `reload` (manager.py lines 104-107): for every
listing entry that is a directory and does not start with a dot, run
`_load_pack`; returns the packs registry, the manifests registry and the
emitted events, in scan order. -/
def scanPacks : List PackDirEntry → (List (String × PackDir) × List (String × PackManifest) × List PackEvent)
  | [] => ([], [], [])
  | e :: rest =>
    let (ps, ms, evs) := scanPacks rest
    if e.isDir && !isDotName e.name then
      match load_pack e.name e.pack with
      | (none, evs0) => (ps, ms, evs0 ++ evs)
      | (some m, evs0) => ((e.name, e.pack) :: ps, (e.name, m) :: ms, evs0 ++ evs)
    else (ps, ms, evs)

/-- State of the top-level `config.json` file. -/
inductive CFile
  | missing
  | invalidJson
  | parsed (names : List String)
deriving DecidableEq, Repr

/-- Method `StickerPackManager._load_config` (manager.py lines 138-153): a
missing file contributes nothing; any exception is swallowed, leaving
the (already cleared) configs registry empty; a parsed file contributes
one `PackConfig` per named pack (payload kept opaque). -/
def loadConfig : CFile → List (String × Unit)
  | .missing => []
  | .invalidJson => []
  | .parsed names => names.map fun n => (n, ())

/-- Registry state of the manager after `reload`. -/
structure Registries where
  packs : List (String × PackDir)
  manifests : List (String × PackManifest)
  configs : List (String × Unit)
deriving Repr

/-- Method `StickerPackManager.reload` (manager.py lines 93-110): clears every
registry, rescans the storage root, then reloads the persisted config.
Total: every per-pack failure is caught inside `_load_pack` and config
errors are swallowed, so `reload` never raises. Returns the new
registries and the events emitted during the scan. -/
def reload (listing : List PackDirEntry) (cfg : CFile) :
    Registries × List PackEvent :=
  ({ packs := (scanPacks listing).1
     manifests := (scanPacks listing).2.1
     configs := loadConfig cfg }, (scanPacks listing).2.2)

/-- Did the `Except` computation succeed? -/
def isOkB {ε α : Type} : Except ε α → Bool
  | .ok _ => true
  | .error _ => false

/-- The message of a failed `Except` computation (empty on success). -/
def errMsg {α : Type} : Except String α → String
  | .error m => m
  | .ok _ => ""

/-- Order on pack-name strings used by `sorted(self.packs.keys())`. -/
def nameLe (a b : String) : Prop :=
  strLeb a b = true

instance : DecidableRel nameLe := fun a b => by
  unfold nameLe; infer_instance

instance : IsTotal String nameLe :=
  ⟨fun a b => listLeb_total a.data b.data⟩

instance : IsTrans String nameLe :=
  ⟨fun _ _ _ h1 h2 => listLeb_trans h1 h2⟩

/-- Method `StickerPackManager.list_packs` (manager.py lines 205-212): sorted
names of the loaded packs. -/
def list_packs (r : Registries) : List String :=
  (r.packs.map (·.1)).insertionSort nameLe

/-! ## Event listeners (manager.py `_emit_event`, lines 80-91) -/

/-- A registered state-change listener: the events it has observed so
far, and a behaviour telling on which events its callback raises. -/
structure ListenerState where
  log : List PackEvent
  raiseOn : PackEvent → Bool

/-- One callback invocation: the listener observes the event; the `Bool`
is whether the callback raised. -/
def runCallback (l : ListenerState) (ev : PackEvent) : ListenerState × Bool :=
  ({ l with log := l.log ++ [ev] }, l.raiseOn ev)

/-- Method `StickerPackManager._emit_event`: calls every registered callback in
order; a raised exception is caught by `except Exception: pass`, so the
raised flag of `runCallback` is dropped and the loop continues with the
remaining listeners. -/
def emit_event : List ListenerState → PackEvent → List ListenerState
  | [], _ => []
  | l :: ls, ev =>
    let r := runCallback l ev
    r.1 :: emit_event ls ev

/-- Full manager state for a mutating operation: the three registries,
the set of pack directories on disk, and the registered listeners. -/
structure MgrState where
  regs : Registries
  fsDirs : List String
  listeners : List ListenerState

/-- Method `StickerPackManager.delete_pack` (manager.py lines 349-378): emits
DELETING, removes the on-disk directory when present, pops the name from
all three registries, saves the config, emits DELETED. In this model no
filesystem step can fail, so the operation always succeeds. -/
def delete_pack (st : MgrState) (pack_name : String) : MgrState × Except String Unit :=
  let ls1 := emit_event st.listeners ⟨pack_name, .deleting, none, none⟩
  let regs2 : Registries :=
    { packs := st.regs.packs.filter (·.1 ≠ pack_name)
      manifests := st.regs.manifests.filter (·.1 ≠ pack_name)
      configs := st.regs.configs.filter (·.1 ≠ pack_name) }
  let fs2 := st.fsDirs.filter (· ≠ pack_name)
  let ls2 := emit_event ls1 ⟨pack_name, .deleted, none, none⟩
  ({ regs := regs2, fsDirs := fs2, listeners := ls2 }, .ok ())

/-! ## Hub client (hub.py) -/

/-- The `HubPackInfo` dataclass from models.py. -/
structure HubPackInfo where
  name : String
  display_name : String
  description : String
  url : String
  version : String
  author : String
  size : Option Int := none
  preview_url : Option String := none
  downloads : Option Int := none
  checksum : Option String := none
deriving DecidableEq, Repr

/-- Parsed JSON object of one catalog entry, every key optional. -/
structure HubPackData where
  name : Option String := none
  display_name : Option String := none
  description : Option String := none
  url : Option String := none
  version : Option String := none
  author : Option String := none
  size : Option Int := none
  preview_url : Option String := none
  downloads : Option Int := none
  checksum : Option String := none
deriving DecidableEq, Repr

/-- Method `HubPackInfo.from_dict` (models.py lines 205-219): total, every
field defaulted. -/
def HubPackInfo.from_dict (d : HubPackData) : HubPackInfo :=
  { name := d.name.getD ""
    display_name := d.display_name.getD ""
    description := d.description.getD ""
    url := d.url.getD ""
    version := d.version.getD "1.0.0"
    author := d.author.getD "Unknown"
    size := d.size
    preview_url := d.preview_url
    downloads := d.downloads
    checksum := d.checksum }

/-- In-memory cache state of a `HubClient` (`_pack_cache`, `_cache_time`;
times in seconds). -/
structure HubState where
  pack_cache : Option (List HubPackInfo)
  cache_time : Option Nat
deriving DecidableEq, Repr

/-- Outcome of the HTTP GET `{hub_url}/packs` performed when the cache
is not used: transport failure (`httpx.HTTPError`), a body that is not a
JSON object (`response.json()` or attribute errors), or a JSON object
with a `status` field, an optional `error` field, and a `packs` array. -/
inductive NetOutcome
  | transportError (msg : String)
  | malformedBody (msg : String)
  | httpOk (status : String) (errField : Option String) (packs : List HubPackData)
deriving DecidableEq, Repr

/-- Method `HubClient.fetch_packs` (hub.py lines 123-169). Returns the new
cache state, the result (`.error` models a raised `HubError`), and
whether a network request was performed. The cache is consulted first:
with `force_refresh` false, a non-empty cache and an age strictly below
`cache_ttl` it is returned as-is with no request. Otherwise the fetch
runs; only a fully successful parse replaces the cache. Note the
`HubError` raised for a non-success status is itself caught by the
catch-all and re-wrapped with the "Unexpected error" prefix. -/
def fetch_packs (st : HubState) (force_refresh : Bool) (now : Nat) (ttl : Nat)
    (net : NetOutcome) : HubState × Except String (List HubPackInfo) × Bool :=
  match st.pack_cache, st.cache_time with
  | some c, some t =>
    if !force_refresh && ((now : Int) - (t : Int) < (ttl : Int)) then (st, .ok c, false)
    else fetchFresh st now net
  | some c, none =>
    -- cache present but no timestamp: the inner `if` is skipped, fetch runs
    if !force_refresh && false then (st, .ok c, false) else fetchFresh st now net
  | none, _ => fetchFresh st now net
where
  /-- The network branch of `fetch_packs`. -/
  fetchFresh (st : HubState) (now : Nat) (net : NetOutcome) :
      HubState × Except String (List HubPackInfo) × Bool :=
    match net with
    | .transportError m => (st, .error ("Failed to fetch packs from hub: " ++ m), true)
    | .malformedBody m => (st, .error ("Unexpected error fetching packs: " ++ m), true)
    | .httpOk status errField packs =>
      if status ≠ "success" then
        (st, .error ("Unexpected error fetching packs: Hub returned error: "
          ++ errField.getD "Unknown error"), true)
      else
        let ps := packs.map HubPackInfo.from_dict
        ({ pack_cache := some ps, cache_time := some now }, .ok ps, true)

/-! ## Pack updater (update.py) -/

/-- Outcome of `HubClient.download_pack` streaming to the target path:
success with the downloaded bytes, or failure (`HubError`) leaving the
target file in the given state (untouched pre-existing content, a
partial file, or no file). -/
inductive DlNet
  | ok (bytes : List Nat)
  | fail (msg : String) (fileAfter : Option (List Nat))
deriving DecidableEq, Repr

/-- Behaviour of a supplied `progress_callback`: whether it raises on
the "Downloading" call and on the "Verifying checksum" call. -/
structure CbBehavior where
  raiseDownloading : Bool
  raiseVerifying : Bool
deriving DecidableEq, Repr

/-- Method `PackUpdater.download_pack` (update.py lines 67-115). Arguments: the
content already at `{output_dir}/{name}.zip` before the call (if any),
the pack info, the download outcome, the optional progress callback and
the checksum function (MD5 kept abstract). Returns the file content left
at the target path and the result (`.error` models a raised
`UpdateError`). Every exception path runs `unlink` on whatever exists at
the target, except the checksum-mismatch branch which unlinks before
raising. -/
def download_pack (pre : Option (List Nat)) (info : HubPackInfo) (net : DlNet)
    (cb : Option CbBehavior) (chk : List Nat → String) :
    Option (List Nat) × Except String Unit :=
  -- progress_callback(f"Downloading {info.display_name}...")
  if hcb : (cb.map (·.raiseDownloading)).getD false then
    -- raised before the download: target still holds `pre`; generic
    -- except unlinks it when present
    (none, .error "Failed to download pack: callback raised")
  else
    match net with
    | .fail m after =>
      -- HubError from the transfer; generic except unlinks `after`
      (none, .error ("Failed to download pack: " ++ m))
    | .ok bytes =>
      match info.checksum with
      | none => (some bytes, .ok ())
      | some c =>
        -- progress_callback("Verifying checksum...")
        if (cb.map (·.raiseVerifying)).getD false then
          (none, .error "Failed to download pack: callback raised")
        else if chk bytes ≠ c then
          -- unlink, then raise UpdateError (passes the first handler)
          (none, .error ("Checksum mismatch for " ++ info.name))
        else (some bytes, .ok ())

/-- Method `PackUpdater.check_update_available` (update.py lines 35-65).
Argument is the outcome of `hub_client.fetch_pack_info` (a raised
`HubError` or an optional catalog entry). -/
def check_update_available (hubResult : Except String (Option HubPackInfo))
    (current_version : Option String) : Except String Bool :=
  match hubResult with
  | .error e => .error ("Failed to check for updates: " ++ e)
  | .ok none => .ok false
  | .ok (some hub_pack) =>
    match current_version with
    | none => .ok true
    | some c => .ok (0 < compare_versions hub_pack.version c)

/-! ## User sessions (main.py lines 185-209) -/

/-- The `UserSession` dataclass from main.py (payload kept as key/value
pairs; `timeout` is the absolute expiry instant). -/
structure UserSession where
  user_id : String
  session_type : String
  data : List (String × String)
  timeout : Nat
deriving DecidableEq, Repr

/-- The `user_sessions` dict, keyed by user id. -/
def SessionStore := List (String × UserSession)

/-- Dict lookup by key (first match; keys are unique under the insert
discipline below). -/
def storeLookup (store : SessionStore) (uid : String) : Option UserSession :=
  (store.find? (·.1 = uid)).map (·.2)

/-- Method `MemeMakerPlugin.create_session`: unconditionally creates/replaces
the session for the user with expiry `now + session_timeout`. -/
def create_session (store : SessionStore) (uid ty : String)
    (data : List (String × String)) (now timeoutLen : Nat) :
    SessionStore × UserSession :=
  let s : UserSession := ⟨uid, ty, data, now + timeoutLen⟩
  ((uid, s) :: store.filter (·.1 ≠ uid), s)

/-- Method `MemeMakerPlugin.get_session`: returns the session only when
`now < timeout`; an expired session is deleted lazily and `none` is
returned; a missing session returns `none` — no path raises. -/
def get_session (store : SessionStore) (uid : String) (now : Nat) :
    Option UserSession × SessionStore :=
  match storeLookup store uid with
  | some s =>
    if now < s.timeout then (some s, store)
    else (none, store.filter (·.1 ≠ uid))
  | none => (none, store)

/-! ## Specification-side definitions used to compare the source
    behaviour against the spec's stated version-comparison semantics -/

/-- The spec's parse: each dotted component independently, a missing or
non-numeric component coerced to zero. -/
def specParseVersion (v : String) : List Int :=
  (splitDots v.data).map fun p => (pyInt p).getD 0

/-- Comparison of the zero-padding against a remaining right tail. -/
def cmpZeros : List Int → Int
  | [] => 0
  | b :: bs => if 0 < b then -1 else if b < 0 then 1 else cmpZeros bs

/-- The spec's comparison: dotted-integer comparison where a shorter
version is implicitly padded with zero components. -/
def cmpPadded : List Int → List Int → Int
  | [], bs => cmpZeros bs
  | a :: as_, [] => if a < 0 then -1 else if 0 < a then 1 else cmpPadded as_ []
  | a :: as_, b :: bs => if a < b then -1 else if b < a then 1 else cmpPadded as_ bs

/-- Version `a` strictly greater than `b` under the spec's
zero-padding dotted-integer semantics. -/
def specVersionGt (a b : String) : Prop :=
  cmpPadded (specParseVersion a) (specParseVersion b) = 1

instance (a b : String) : Decidable (specVersionGt a b) := by
  unfold specVersionGt; infer_instance

/-- Python tuple strict order on integer tuples, stated inductively: a
proper nonempty extension is greater, otherwise the first differing
component decides. -/
inductive TupleGt : List Int → List Int → Prop
  | longer (a : Int) (as_ : List Int) : TupleGt (a :: as_) []
  | head {a b : Int} {as_ bs : List Int} : b < a → TupleGt (a :: as_) (b :: bs)
  | tail {a : Int} {as_ bs : List Int} : TupleGt as_ bs → TupleGt (a :: as_) (a :: bs)

/-- The ERROR events among an emitted event list. -/
def evErrors (evs : List PackEvent) : List PackEvent :=
  evs.filter fun ev => ev.state == PackState.error

/-- Concrete pack-directory listing used to witness the reload claim:
one valid pack and one whose `metadata.json` is missing. -/
def demoGoodPack : PackDir :=
  { metadata := .parsed { name := some "alpha", display_name := some "Alpha" }
    stickersDir := some [{ filename := "x.png", isFile := true }] }

/-- The corrupt pack of the reload witness. -/
def demoBadPack : PackDir :=
  { metadata := .missing, stickersDir := none }

/-- The reload-witness listing: `alpha` valid, `broken` corrupt. -/
def demoListing : List PackDirEntry :=
  [⟨"alpha", true, demoGoodPack⟩, ⟨"broken", true, demoBadPack⟩]

/-! # Theorems -/

theorem cmpIntList_eq_one_iff (a b : List Int) :
    cmpIntList a b = 1 ↔ TupleGt a b := by
  induction a generalizing b with
  | nil =>
    cases b <;> simp only [cmpIntList] <;>
      exact ⟨fun h => absurd h (by decide), fun h => by cases h⟩
  | cons x xs ih =>
    cases b with
    | nil =>
      simp only [cmpIntList]
      exact ⟨fun _ => TupleGt.longer x xs, fun _ => trivial⟩
    | cons y ys =>
      simp only [cmpIntList]
      by_cases hxy : x < y
      · simp only [hxy, if_true]
        constructor
        · intro h; omega
        · intro h
          cases h with
          | head h => omega
          | tail h => omega
      · by_cases hyx : y < x
        · simp only [hxy, if_false, hyx, if_true]
          exact ⟨fun _ => TupleGt.head hyx, fun _ => trivial⟩
        · have hxe : x = y := le_antisymm (le_of_not_lt hyx) (le_of_not_lt hxy)
          subst hxe
          simp only [hxy, if_false, lt_irrefl, if_false]
          constructor
          · intro h; exact TupleGt.tail ((ih ys).mp h)
          · intro h
            cases h with
            | head h => omega
            | tail h => exact (ih ys).mpr h

/-- Claim C1 (counterexample): the claim states
`compare("1.0.0","1.0") == 0`, but the source's `_compare_versions`
compares unpadded Python tuples, where `(1,0,0) > (1,0)`, so the result
is nonzero. -/
theorem C1_counterexample : compare_versions "1.0.0" "1.0" ≠ 0 := by decide

/-- Claim C1 (amended): `_compare_versions` is a pure function (a plain
Lean function here, performing no I/O in the source) and satisfies
`compare("2.0","1.9.9") > 0`, `compare("1.0.0","1.0") > 0`,
`compare("1.2.0","1.2") > 0`, `compare("2.0.0","1.9.9") > 0` and
`compare("abc","1.0") < 0`; any non-numeric version string parses as the
zero version `(0,)`, which is below every version with a positive first
component. -/
theorem C1_compare_versions_amended :
    compare_versions "2.0" "1.9.9" = 1
    ∧ compare_versions "1.0.0" "1.0" = 1
    ∧ compare_versions "1.2.0" "1.2" = 1
    ∧ compare_versions "2.0.0" "1.9.9" = 1
    ∧ compare_versions "abc" "1.0" = -1
    ∧ parse_version "abc" = [0] := by
  refine ⟨by decide, by decide, by decide, by decide, by decide, by decide⟩

/-- Claim C2 (counterexample): with a missing `stickers/` subdirectory,
`get_sticker_path` iterates `self.stickers_dir.iterdir()` without an
existence check and raises `FileNotFoundError` instead of returning
`None`; `get_sticker_bytes` propagates it. -/
theorem C2_counterexample :
    get_sticker_path ⟨MFile.missing, none⟩ "smile" = .error "FileNotFoundError"
    ∧ get_sticker_bytes ⟨MFile.missing, none⟩ "smile" = .error "FileNotFoundError" := by
  exact ⟨rfl, rfl⟩

/-- Claim C2 (amended): when the pack's `stickers/` directory exists,
`get_sticker_path` and `get_sticker_bytes` never raise: they return the
first matching entry (stem equal, supported extension) or `None` exactly
when no entry matches; when the directory is absent, both raise
`FileNotFoundError` from `iterdir`. -/
theorem C2_sticker_lookup_amended (m : MFile) (entries : List DirEntry)
    (name : String) :
    (∃ v, get_sticker_path ⟨m, some entries⟩ name = .ok v
      ∧ get_sticker_bytes ⟨m, some entries⟩ name = .ok (v.map (·.content)))
    ∧ (get_sticker_path ⟨m, some entries⟩ name = .ok none ↔
        ∀ e ∈ entries, ¬(pyStem e.filename = name
          ∧ SUPPORTED_FORMATS.contains (lowerStr (pySuffix e.filename)) = true))
    ∧ get_sticker_path ⟨m, none⟩ name = .error "FileNotFoundError"
    ∧ get_sticker_bytes ⟨m, none⟩ name = .error "FileNotFoundError" := by
  refine ⟨⟨_, rfl, rfl⟩, ?_, rfl, rfl⟩
  simp only [get_sticker_path, Except.ok.injEq, List.find?_eq_none,
    Bool.and_eq_true, decide_eq_true_eq]

theorem cmpIntList_cases (a b : List Int) :
    cmpIntList a b = -1 ∨ cmpIntList a b = 0 ∨ cmpIntList a b = 1 := by
  induction a generalizing b with
  | nil => cases b <;> simp [cmpIntList]
  | cons x xs ih =>
    cases b with
    | nil => simp [cmpIntList]
    | cons y ys =>
      simp only [cmpIntList]
      by_cases hxy : x < y
      · simp [hxy]
      · by_cases hyx : y < x
        · simp [hxy, hyx]
        · simpa [hxy, hyx] using ih ys

theorem cmpIntList_pos_iff (a b : List Int) :
    0 < cmpIntList a b ↔ TupleGt a b := by
  rw [← cmpIntList_eq_one_iff]
  rcases cmpIntList_cases a b with h | h | h <;> rw [h] <;> omega

/-- Claim C7 (counterexample): the claim says an update is reported
exactly when the hub version is strictly greater under dotted-integer
comparison with missing components coerced to zero; for hub version
"1.0.0" and current version "1.0" those semantics give equality, yet
`check_update_available` reports an update, because the source compares
unpadded Python tuples, where `(1,0,0) > (1,0)`. -/
theorem C7_counterexample :
    check_update_available
      (.ok (some ⟨"p", "P", "d", "u", "1.0.0", "a", none, none, none, none⟩))
      (some "1.0") = .ok true
    ∧ ¬ specVersionGt "1.0.0" "1.0" := by
  exact ⟨rfl, by decide⟩

/-- Claim C7 (amended): `check_update_available` returns false when the
pack is absent from the hub catalog, true when `current_version` is
unset, and otherwise true iff the hub version is strictly greater than
the current version under Python tuple comparison of the dotted-integer
parses — a version with any non-numeric component parses as `(0,)`, and
there is no zero-padding: a longer version with an equal prefix counts
as strictly greater. -/
theorem C7_check_update_amended :
    (∀ cur, check_update_available (.ok none) cur = .ok false)
    ∧ (∀ p : HubPackInfo, check_update_available (.ok (some p)) none = .ok true)
    ∧ (∀ (p : HubPackInfo) (c : String),
        (check_update_available (.ok (some p)) (some c) = .ok true ↔
          TupleGt (parse_version p.version) (parse_version c)))
    ∧ (∀ (p : HubPackInfo) (c : String), ∃ b,
        check_update_available (.ok (some p)) (some c) = .ok b) := by
  refine ⟨fun cur => by cases cur <;> rfl, fun p => rfl, fun p c => ?_, fun p c => ⟨_, rfl⟩⟩
  simp only [check_update_available, Except.ok.injEq, decide_eq_true_eq]
  exact cmpIntList_pos_iff _ _

/-- Claim C6: `discover_stickers` returns the empty list without error
when the `stickers/` subdirectory is absent; otherwise exactly the
regular files whose lowercased extension is a supported image format
(as a permutation of the filtered listing), in filename order (their
pack-relative paths are pairwise sorted), and on the listing
`{b.png, a.JPG, c.txt, readme.md}` it returns stickers named
"a" then "b". -/
theorem C6_discover_stickers :
    (∀ m, discover_stickers ⟨m, none⟩ = [])
    ∧ (∀ m entries,
        (discover_stickers ⟨m, some entries⟩).Perm
          ((entries.filter isImageEntry).map fun e =>
            ({ name := pyStem e.filename, path := "stickers/" ++ e.filename,
               file_source := .localSource, created_at := none } : StickerInfo)))
    ∧ (∀ m entries, List.Pairwise
        (fun s t : StickerInfo => strLeb s.path t.path = true)
        (discover_stickers ⟨m, some entries⟩))
    ∧ (discover_stickers ⟨MFile.missing, some
        [⟨"b.png", true, []⟩, ⟨"a.JPG", true, []⟩,
         ⟨"c.txt", true, []⟩, ⟨"readme.md", true, []⟩]⟩).map (·.name)
        = ["a", "b"] := by
  refine ⟨fun m => rfl, fun m entries => ?_, fun m entries => ?_, by decide⟩
  · exact ((List.perm_insertionSort entryLe entries).filter _).map _
  · have hs : List.Pairwise entryLe (entries.insertionSort entryLe) :=
      List.sorted_insertionSort entryLe entries
    have hf : List.Pairwise entryLe ((entries.insertionSort entryLe).filter isImageEntry) :=
      hs.filter _
    refine hf.map _ fun a b hab => ?_
    show listLeb _ _ = true
    rw [String.data_append, String.data_append, listLeb_append]
    exact hab

theorem parseStickers_error_iff (l : List StickerData) :
    (∃ e, parseStickers l = .error e) ↔
      ∃ s ∈ l, fileSourceOfString (s.file_source.getD "local") = none := by
  induction l with
  | nil => simp [parseStickers]
  | cons s rest ih =>
    simp only [parseStickers]
    cases hfs : fileSourceOfString (s.file_source.getD "local") with
    | none =>
      simp only [List.mem_cons]
      exact ⟨fun _ => ⟨s, Or.inl rfl, hfs⟩, fun _ => ⟨_, rfl⟩⟩
    | some fs =>
      cases hps : parseStickers rest with
      | error e =>
        simp only [Except.map, List.mem_cons]
        constructor
        · intro _
          rcases ih.mp ⟨e, hps⟩ with ⟨t, ht, hbad⟩
          exact ⟨t, Or.inr ht, hbad⟩
        · intro _; exact ⟨e, rfl⟩
      | ok sts =>
        simp only [Except.map, List.mem_cons]
        constructor
        · rintro ⟨e, he⟩; cases he
        · rintro ⟨t, ht | ht, hbad⟩
          · rw [ht] at hbad; rw [hbad] at hfs; cases hfs
          · rcases ih.mpr ⟨t, ht, hbad⟩ with ⟨e, he⟩
            rw [he] at hps; cases hps

/-- Claim C10: `Pack.load_manifest` succeeds for every parsed
`metadata.json` whose `name` and `display_name` are non-empty, with all
other fields defaulted exactly as the claim lists (description "",
version "1.0.0", author "Unknown", enabled true, url/checksum/timestamps
none, stickers empty); and a `PackError` arises exactly for a missing
file, invalid JSON, an empty-or-absent `name` or `display_name`, or a
sticker entry in the file whose `file_source` value is invalid (the last
being one form of "invalid file"). -/
theorem C10_load_manifest (n dn : String) (f : MFile) :
    (n ≠ "" → dn ≠ "" →
      load_manifest (.parsed { name := some n, display_name := some dn }) =
        .ok { name := n, display_name := dn, description := "", version := "1.0.0",
              author := "Unknown", enabled := true, url := none, checksum := none,
              created_at := none, updated_at := none, stickers := [] })
    ∧ ((∃ e, load_manifest f = .error e) ↔
        (f = .missing ∨ f = .invalidJson
          ∨ ∃ d, f = .parsed d
              ∧ (d.name.getD "" = "" ∨ d.display_name.getD "" = ""
                ∨ ∃ s ∈ d.stickers.getD [],
                    fileSourceOfString (s.file_source.getD "local") = none))) := by
  constructor
  · intro hn hdn
    simp [load_manifest, PackManifest.from_dict, parseStickers, Except.map, hn, hdn]
  · cases f with
    | missing => simp [load_manifest]
    | invalidJson => simp [load_manifest]
    | parsed d =>
      simp only [load_manifest, MFile.parsed.injEq, reduceCtorEq, false_or,
        exists_eq_left']
      cases hps : parseStickers (d.stickers.getD []) with
      | error e =>
        simp only [PackManifest.from_dict, hps, Except.map]
        constructor
        · intro _
          exact Or.inr (Or.inr ((parseStickers_error_iff _).mp ⟨e, hps⟩))
        · intro _; exact ⟨_, rfl⟩
      | ok sts =>
        simp only [PackManifest.from_dict, hps, Except.map]
        by_cases hn : d.name.getD "" = ""
        · simp only [hn, if_true]
          exact ⟨fun _ => Or.inl trivial, fun _ => ⟨_, rfl⟩⟩
        · by_cases hdn : d.display_name.getD "" = ""
          · simp only [hn, if_false, hdn, if_true]
            exact ⟨fun _ => Or.inr (Or.inl trivial), fun _ => ⟨_, rfl⟩⟩
          · simp only [hn, if_false, hdn, if_false]
            constructor
            · rintro ⟨e, he⟩; cases he
            · rintro (h | h | h)
              · exact h.elim
              · exact h.elim
              · rcases (parseStickers_error_iff _).mpr h with ⟨e, he⟩
                rw [he] at hps; cases hps

/-- Claim C10 witness: a manifest JSON object with only
`name = "demo"` and `display_name = "Demo"` loads successfully with the
defaulted fields. -/
theorem C10_load_manifest_witness :
    load_manifest (.parsed { name := some "demo", display_name := some "Demo" }) =
      .ok { name := "demo", display_name := "Demo", description := "",
            version := "1.0.0", author := "Unknown", enabled := true, url := none,
            checksum := none, created_at := none, updated_at := none, stickers := [] } :=
  (C10_load_manifest "demo" "Demo" .missing).1 (by decide) (by decide)

/-- Claim C8: a session created with timeout `T` is returned by `get`
at any instant strictly before `now + T`; at or past the expiry, `get`
returns none and deletes the stored session, and a second `get` also
returns none (the model is a total function: no lookup path raises). -/
theorem C8_session_expiry (store : SessionStore) (uid ty : String)
    (data : List (String × String)) (now timeoutLen t1 t2 : Nat) :
    (t1 < now + timeoutLen →
      (get_session (create_session store uid ty data now timeoutLen).1 uid t1).1 =
        some ⟨uid, ty, data, now + timeoutLen⟩)
    ∧ (now + timeoutLen ≤ t2 →
        (get_session (create_session store uid ty data now timeoutLen).1 uid t2).1 = none
        ∧ storeLookup
            (get_session (create_session store uid ty data now timeoutLen).1 uid t2).2 uid
            = none
        ∧ (get_session
            (get_session (create_session store uid ty data now timeoutLen).1 uid t2).2
            uid t2).1 = none) := by
  have hlook : storeLookup (create_session store uid ty data now timeoutLen).1 uid =
      some ⟨uid, ty, data, now + timeoutLen⟩ := by
    simp [create_session, storeLookup, List.find?]
  have herase : ∀ (l : SessionStore) (p : String × UserSession → Bool),
      (∀ x, p x = true → x.1 ≠ uid) → storeLookup (l.filter p) uid = none := by
    intro l p hp
    simp only [storeLookup, Option.map_eq_none']
    rw [List.find?_eq_none]
    intro x hx
    have := hp x (List.mem_filter.mp hx).2
    simpa using this
  constructor
  · intro h1
    simp [get_session, hlook, h1]
  · intro h2
    have hnot : ¬ t2 < now + timeoutLen := by omega
    refine ⟨by simp [get_session, hlook, hnot], ?_, ?_⟩
    · simp only [get_session, hlook, hnot, if_false]
      exact herase _ _ (by intro x hx; simpa using hx)
    · simp only [get_session, hlook, hnot, if_false]
      have h3 := herase ((create_session store uid ty data now timeoutLen).1)
        (fun x => !decide (x.1 = uid)) (by intro x hx; simpa using hx)
      simp [get_session, h3]

/-- Claim C8 witness: with an empty store, user "u", a 300-second
timeout created at time 0: retrieval at time 299 returns the session;
at time 300 the first `get` returns none and purges, and the second
`get` still returns none. -/
theorem C8_session_expiry_witness :
    ((299 : Nat) < 0 + 300
      ∧ (get_session (create_session [] "u" "delete_confirm" [] 0 300).1 "u" 299).1 =
          some ⟨"u", "delete_confirm", [], 0 + 300⟩)
    ∧ ((0 : Nat) + 300 ≤ 300
      ∧ (get_session (create_session [] "u" "delete_confirm" [] 0 300).1 "u" 300).1 = none) := by
  refine ⟨⟨by decide, ?_⟩, ⟨by decide, ?_⟩⟩
  · exact (C8_session_expiry [] "u" "delete_confirm" [] 0 300 299 300).1 (by decide)
  · exact ((C8_session_expiry [] "u" "delete_confirm" [] 0 300 299 300).2 (by decide)).1

/-- Claim C3: with `info.checksum` set, `download_pack` fails with
`UpdateError` on a checksum mismatch; on every failure path (callback
exception, transport failure, mismatch) no file remains at the target
path `{output_dir}/{name}.zip`; on a checksum match it succeeds and
leaves the downloaded file in place. -/
theorem C3_download_pack_checksum (pre : Option (List Nat)) (info : HubPackInfo)
    (net : DlNet) (cb : Option CbBehavior) (chk : List Nat → String) (c : String) :
    (info.checksum = some c →
      ∀ bytes, net = .ok bytes →
      (cb.map (·.raiseDownloading)).getD false = false →
      (cb.map (·.raiseVerifying)).getD false = false →
      chk bytes ≠ c →
      download_pack pre info net cb chk =
        (none, .error ("Checksum mismatch for " ++ info.name)))
    ∧ (∀ e, (download_pack pre info net cb chk).2 = .error e →
        (download_pack pre info net cb chk).1 = none)
    ∧ (info.checksum = some c →
      ∀ bytes, net = .ok bytes →
      (cb.map (·.raiseDownloading)).getD false = false →
      (cb.map (·.raiseVerifying)).getD false = false →
      chk bytes = c →
      download_pack pre info net cb chk = (some bytes, .ok ())) := by
  refine ⟨?_, ?_, ?_⟩
  · intro hc bytes hnet h1 h2 hne
    subst hnet
    simp [download_pack, h1, hc, h2, hne]
  · intro e
    unfold download_pack
    by_cases h1 : (cb.map (·.raiseDownloading)).getD false
    · simp [h1]
    · simp only [h1]
      cases net with
      | fail m after => simp
      | ok bytes =>
        cases hc : info.checksum with
        | none => simp
        | some c0 =>
          by_cases h2 : (cb.map (·.raiseVerifying)).getD false
          · simp [h2]
          · by_cases h3 : chk bytes ≠ c0
            · simp [h2, h3]
            · simp [h2, h3]
  · intro hc bytes hnet h1 h2 heq
    subst hnet
    simp [download_pack, h1, hc, h2, heq]

/-- Claim C3 witness: a two-byte download whose recorded checksum
matches under the abstract checksum function succeeds and leaves the
file; the same download against a wrong recorded checksum fails with
the mismatch error and leaves nothing. -/
theorem C3_download_pack_checksum_witness :
    download_pack none
      ⟨"pk", "Pk", "", "u", "1.0.0", "a", none, none, none, some "h:[1, 2]"⟩
      (.ok [1, 2]) none (fun b => "h:" ++ toString b) = (some [1, 2], .ok ())
    ∧ download_pack none
      ⟨"pk", "Pk", "", "u", "1.0.0", "a", none, none, none, some "bad"⟩
      (.ok [1, 2]) none (fun b => "h:" ++ toString b) =
        (none, .error "Checksum mismatch for pk") := by
  constructor
  · exact (C3_download_pack_checksum none
      ⟨"pk", "Pk", "", "u", "1.0.0", "a", none, none, none, some "h:[1, 2]"⟩
      (.ok [1, 2]) none (fun b => "h:" ++ toString b) "h:[1, 2]").2.2
      rfl [1, 2] rfl rfl rfl (by decide)
  · exact (C3_download_pack_checksum none
      ⟨"pk", "Pk", "", "u", "1.0.0", "a", none, none, none, some "bad"⟩
      (.ok [1, 2]) none (fun b => "h:" ++ toString b) "bad").1
      rfl [1, 2] rfl rfl rfl (by decide)

theorem fetchFresh_spec (st : HubState) (now : Nat) (net : NetOutcome) :
    (fetch_packs.fetchFresh st now net).2.2 = true
    ∧ (∀ e, (fetch_packs.fetchFresh st now net).2.1 = .error e →
        (fetch_packs.fetchFresh st now net).1 = st)
    ∧ (∀ ps, (fetch_packs.fetchFresh st now net).2.1 = .ok ps →
        (fetch_packs.fetchFresh st now net).1 = ⟨some ps, some now⟩) := by
  cases net with
  | transportError m => simp [fetch_packs.fetchFresh]
  | malformedBody m => simp [fetch_packs.fetchFresh]
  | httpOk status errField packs =>
    by_cases hst : status = "success"
    · simp only [fetch_packs.fetchFresh, hst]
      refine ⟨rfl, ?_, ?_⟩
      · intro e he; simp at he
      · intro ps hps
        simp only [ne_eq, not_true_eq_false, if_false, Except.ok.injEq] at hps ⊢
        rw [hps]
    · simp [fetch_packs.fetchFresh, hst]

/-- Claim C5: `fetch_packs` returns the cached catalog and performs no
network request when `force_refresh` is false and the cache is younger
than `cache_ttl`; when no request is performed that is the only case;
any failed fetch raises `HubError` and leaves the cache untouched; a
successful fetch replaces the whole cache atomically. -/
theorem C5_fetch_packs_cache (st : HubState) (force : Bool) (now ttl : Nat)
    (net : NetOutcome) :
    (∀ c t, st.pack_cache = some c → st.cache_time = some t → force = false →
      ((now : Int) - (t : Int) < (ttl : Int)) →
      fetch_packs st force now ttl net = (st, .ok c, false))
    ∧ (∀ e, (fetch_packs st force now ttl net).2.1 = .error e →
        (fetch_packs st force now ttl net).1 = st)
    ∧ ((fetch_packs st force now ttl net).2.2 = false →
        ∃ c t, st.pack_cache = some c ∧ st.cache_time = some t ∧ force = false
          ∧ ((now : Int) - (t : Int) < (ttl : Int))
          ∧ fetch_packs st force now ttl net = (st, .ok c, false))
    ∧ (∀ ps, (fetch_packs st force now ttl net).2.1 = .ok ps →
        (fetch_packs st force now ttl net).2.2 = true →
        (fetch_packs st force now ttl net).1 = ⟨some ps, some now⟩) := by
  obtain ⟨cache, time⟩ := st
  refine ⟨?_, ?_, ?_, ?_⟩
  · intro c t hc ht hf hage
    cases hc; cases ht
    simp [fetch_packs, hf, hage]
  · intro e he
    cases cache with
    | none => exact (fetchFresh_spec _ now net).2.1 e he
    | some c =>
      cases time with
      | none =>
        simp only [fetch_packs, Bool.and_false, if_false] at he ⊢
        exact (fetchFresh_spec _ now net).2.1 e he
      | some t =>
        simp only [fetch_packs] at he ⊢
        by_cases hcond : (!force && decide ((now : Int) - (t : Int) < (ttl : Int))) = true
        · simp [hcond] at he
        · simp only [hcond, if_false] at he ⊢
          exact (fetchFresh_spec _ now net).2.1 e he
  · intro hnof
    cases cache with
    | none =>
      cases time with
      | none =>
        simp only [fetch_packs] at hnof
        rw [(fetchFresh_spec _ now net).1] at hnof; cases hnof
      | some t =>
        simp only [fetch_packs] at hnof
        rw [(fetchFresh_spec _ now net).1] at hnof; cases hnof
    | some c =>
      cases time with
      | none =>
        simp only [fetch_packs, Bool.and_false] at hnof
        rw [if_neg (by simp)] at hnof
        rw [(fetchFresh_spec _ now net).1] at hnof; cases hnof
      | some t =>
        simp only [fetch_packs] at hnof ⊢
        by_cases hcond : (!force && decide ((now : Int) - (t : Int) < (ttl : Int))) = true
        · rcases Bool.and_eq_true .. |>.mp hcond with ⟨hf, hage⟩
          refine ⟨c, t, rfl, rfl, by simpa using hf, by simpa using hage, ?_⟩
          rw [if_pos hcond]
        · rw [if_neg hcond] at hnof
          rw [(fetchFresh_spec _ now net).1] at hnof; cases hnof
  · intro ps hok hfetched
    cases cache with
    | none => exact (fetchFresh_spec _ now net).2.2 ps hok
    | some c =>
      cases time with
      | none =>
        simp only [fetch_packs, Bool.and_false, if_false] at hok ⊢
        exact (fetchFresh_spec _ now net).2.2 ps hok
      | some t =>
        simp only [fetch_packs] at hok hfetched ⊢
        by_cases hcond : (!force && decide ((now : Int) - (t : Int) < (ttl : Int))) = true
        · simp [hcond] at hfetched
        · simp only [hcond, if_false] at hok ⊢
          exact (fetchFresh_spec _ now net).2.2 ps hok

/-- Claim C5 witness: a one-entry cache written at time 0 with TTL 3600
is returned unchanged with no request at time 100; at time 4000 the
fetch runs: a transport failure leaves the cache unchanged, and a
successful fetch replaces it with the parsed catalog stamped at 4000. -/
theorem C5_fetch_packs_cache_witness :
    fetch_packs ⟨some [HubPackInfo.from_dict {}], some 0⟩ false 100 3600
      (.transportError "boom")
      = (⟨some [HubPackInfo.from_dict {}], some 0⟩, .ok [HubPackInfo.from_dict {}], false)
    ∧ (fetch_packs ⟨some [HubPackInfo.from_dict {}], some 0⟩ false 4000 3600
        (.transportError "boom")).1 = ⟨some [HubPackInfo.from_dict {}], some 0⟩
    ∧ (fetch_packs ⟨some [HubPackInfo.from_dict {}], some 0⟩ false 4000 3600
        (.httpOk "success" none [{ name := some "p" }])).1
        = ⟨some [HubPackInfo.from_dict { name := some "p" }], some 4000⟩ := by
  refine ⟨?_, ?_, ?_⟩
  · exact (C5_fetch_packs_cache ⟨some [HubPackInfo.from_dict {}], some 0⟩ false 100 3600
      (.transportError "boom")).1 [HubPackInfo.from_dict {}] 0 rfl rfl rfl (by decide)
  · exact (C5_fetch_packs_cache ⟨some [HubPackInfo.from_dict {}], some 0⟩ false 4000 3600
      (.transportError "boom")).2.1 "Failed to fetch packs from hub: boom" rfl
  · exact (C5_fetch_packs_cache ⟨some [HubPackInfo.from_dict {}], some 0⟩ false 4000 3600
      (.httpOk "success" none [{ name := some "p" }])).2.2.2
      [HubPackInfo.from_dict { name := some "p" }] rfl rfl

theorem emit_event_log (ls : List ListenerState) (ev : PackEvent) :
    (emit_event ls ev).map (·.log) = (ls.map (·.log)).map (· ++ [ev]) := by
  induction ls with
  | nil => rfl
  | cons l rest ih => simp [emit_event, runCallback, ih]

/-- Claim C9: every state transition is broadcast to every registered
listener (each listener's observed log is extended by the event,
whatever its callback does), and a raising listener never aborts the
operation or changes its outcome: `delete_pack` produces the same
registries, filesystem state and result for any two listener sets that
differ only in which callbacks raise. -/
theorem C9_listener_isolation :
    (∀ (ls : List ListenerState) (ev : PackEvent),
      (emit_event ls ev).map (·.log) = (ls.map (·.log)).map (· ++ [ev]))
    ∧ (∀ (st : MgrState) (name : String),
        (delete_pack st name).1.listeners.map (·.log) =
          st.listeners.map (fun l => l.log ++
            [⟨name, .deleting, none, none⟩, ⟨name, .deleted, none, none⟩])
        ∧ (delete_pack st name).2 = .ok ())
    ∧ (∀ (regs : Registries) (fs : List String) (name : String)
        (ls1 ls2 : List ListenerState), ls1.map (·.log) = ls2.map (·.log) →
        (delete_pack ⟨regs, fs, ls1⟩ name).1.regs = (delete_pack ⟨regs, fs, ls2⟩ name).1.regs
        ∧ (delete_pack ⟨regs, fs, ls1⟩ name).1.fsDirs
            = (delete_pack ⟨regs, fs, ls2⟩ name).1.fsDirs
        ∧ (delete_pack ⟨regs, fs, ls1⟩ name).2 = (delete_pack ⟨regs, fs, ls2⟩ name).2
        ∧ (delete_pack ⟨regs, fs, ls1⟩ name).1.listeners.map (·.log)
            = (delete_pack ⟨regs, fs, ls2⟩ name).1.listeners.map (·.log)) := by
  refine ⟨emit_event_log, ?_, ?_⟩
  · intro st name
    refine ⟨?_, rfl⟩
    show (emit_event (emit_event st.listeners _) _).map (·.log) = _
    simp [emit_event_log, List.map_map, Function.comp]
  · intro regs fs name ls1 ls2 hlog
    refine ⟨rfl, rfl, rfl, ?_⟩
    show (emit_event (emit_event ls1 _) _).map (·.log) =
      (emit_event (emit_event ls2 _) _).map (·.log)
    rw [emit_event_log, emit_event_log, emit_event_log, emit_event_log, hlog]

/-- Claim C9 witness: one always-raising listener and one never-raising
listener with the same (empty) observed log: deleting pack "x" from a
one-pack registry yields identical registries, filesystem state and
success both ways, and both listeners observe DELETING then DELETED. -/
theorem C9_listener_isolation_witness :
    ([(⟨[], fun _ => true⟩ : ListenerState)].map (·.log)
        = [(⟨[], fun _ => false⟩ : ListenerState)].map (·.log))
    ∧ (delete_pack ⟨⟨[("x", demoGoodPack)], [], []⟩, ["x"],
        [⟨[], fun _ => true⟩]⟩ "x").1.regs
      = (delete_pack ⟨⟨[("x", demoGoodPack)], [], []⟩, ["x"],
        [⟨[], fun _ => false⟩]⟩ "x").1.regs
    ∧ (delete_pack ⟨⟨[("x", demoGoodPack)], [], []⟩, ["x"],
        [⟨[], fun _ => true⟩]⟩ "x").1.listeners.map (·.log)
      = [[⟨"x", .deleting, none, none⟩, ⟨"x", .deleted, none, none⟩]] := by
  refine ⟨rfl, ?_, ?_⟩
  · exact (C9_listener_isolation.2.2 ⟨[("x", demoGoodPack)], [], []⟩ ["x"] "x"
      [⟨[], fun _ => true⟩] [⟨[], fun _ => false⟩] rfl).1
  · exact (C9_listener_isolation.2.1
      ⟨⟨[("x", demoGoodPack)], [], []⟩, ["x"], [⟨[], fun _ => true⟩]⟩ "x").1

theorem scanPacks_keys (listing : List PackDirEntry)
    (hdir : ∀ e ∈ listing, e.isDir = true)
    (hdot : ∀ e ∈ listing, isDotName e.name = false) :
    (scanPacks listing).1.map (·.1) =
      (listing.filter fun e => isOkB (load_manifest e.pack.metadata)).map (·.name) := by
  induction listing with
  | nil => rfl
  | cons e rest ih =>
    have hd := hdir e (List.mem_cons_self e rest)
    have hdt := hdot e (List.mem_cons_self e rest)
    have ihr := ih (fun x hx => hdir x (List.mem_cons_of_mem e hx))
      (fun x hx => hdot x (List.mem_cons_of_mem e hx))
    simp only [scanPacks, hd, hdt, Bool.not_false, Bool.and_self, if_true]
    cases hm : load_manifest e.pack.metadata with
    | error m => simpa [load_pack, hm, List.filter_cons, isOkB] using ihr
    | ok mf => simpa [load_pack, hm, List.filter_cons, isOkB] using ihr

theorem scanPacks_errors (listing : List PackDirEntry)
    (hdir : ∀ e ∈ listing, e.isDir = true)
    (hdot : ∀ e ∈ listing, isDotName e.name = false) :
    evErrors (scanPacks listing).2.2 =
      (listing.filter fun e => !isOkB (load_manifest e.pack.metadata)).map
        fun e => ⟨e.name, .error, some (errMsg (load_manifest e.pack.metadata)), none⟩ := by
  induction listing with
  | nil => rfl
  | cons e rest ih =>
    have hd := hdir e (List.mem_cons_self e rest)
    have hdt := hdot e (List.mem_cons_self e rest)
    have ihr := ih (fun x hx => hdir x (List.mem_cons_of_mem e hx))
      (fun x hx => hdot x (List.mem_cons_of_mem e hx))
    simp only [scanPacks, hd, hdt, Bool.not_false, Bool.and_self, if_true]
    cases hm : load_manifest e.pack.metadata with
    | error m =>
      simpa [load_pack, hm, evErrors, List.filter_append, List.filter_cons,
        isOkB, errMsg] using ihr
    | ok mf =>
      simpa [load_pack, hm, evErrors, List.filter_append, List.filter_cons,
        isOkB] using ihr

theorem filter_eq_singleton {α : Type} {p : α → Bool} {l : List α} {a : α}
    (hnd : l.Nodup) (ha : a ∈ l) (hpa : p a = true)
    (hother : ∀ x ∈ l, x ≠ a → p x = false) : l.filter p = [a] := by
  induction l with
  | nil => cases ha
  | cons b rest ih =>
    rcases List.nodup_cons.mp hnd with ⟨hbn, hrest⟩
    rcases List.mem_cons.mp ha with hab | har
    · subst hab
      have hrf : rest.filter p = [] := by
        rw [List.filter_eq_nil_iff]
        intro x hx
        have hxa : x ≠ a := fun h => hbn (h ▸ hx)
        simp [hother x (List.mem_cons_of_mem a hx) hxa]
      rw [List.filter_cons, if_pos hpa, hrf]
    · have hba : b ≠ a := fun h => hbn (h ▸ har)
      have hpb : p b = false := hother b (List.mem_cons_self b rest) hba
      rw [List.filter_cons, if_neg (by simp [hpb])]
      exact ih hrest har fun x hx hxa => hother x (List.mem_cons_of_mem b hx) hxa

/-- Claim C4: for a storage root of pack directories of which exactly
one fails to load (missing or invalid `metadata.json`), `reload` —
total here because `_load_pack` catches every per-pack exception and
`_load_config` swallows config errors — emits exactly one ERROR event,
carrying that pack's exception message; every other pack is loaded:
afterwards `list_packs` contains exactly the other names —
`listing.length - 1` of them, without duplicates. -/
theorem C4_reload_isolation (listing : List PackDirEntry) (cfg : CFile)
    (bad : PackDirEntry) (msg : String)
    (hmem : bad ∈ listing)
    (hdir : ∀ e ∈ listing, e.isDir = true)
    (hdot : ∀ e ∈ listing, isDotName e.name = false)
    (hnodup : (listing.map (·.name)).Nodup)
    (hbad : load_manifest bad.pack.metadata = .error msg)
    (hgood : ∀ e ∈ listing, e.name ≠ bad.name →
      isOkB (load_manifest e.pack.metadata) = true) :
    evErrors (reload listing cfg).2 = [⟨bad.name, .error, some msg, none⟩]
    ∧ (∀ n, n ∈ list_packs (reload listing cfg).1 ↔
        ((∃ e ∈ listing, e.name = n) ∧ n ≠ bad.name))
    ∧ (list_packs (reload listing cfg).1).length = listing.length - 1
    ∧ (list_packs (reload listing cfg).1).Nodup := by
  have hinj := List.inj_on_of_nodup_map hnodup
  have huniq : ∀ e ∈ listing, e.name = bad.name → e = bad :=
    fun e he h => hinj he hmem h
  have hbadfilter :
      (listing.filter fun e => !isOkB (load_manifest e.pack.metadata)) = [bad] := by
    refine filter_eq_singleton (List.Nodup.of_map _ hnodup) hmem ?_ ?_
    · simp [hbad, isOkB]
    · intro x hx hxa
      have hxn : x.name ≠ bad.name := fun h => hxa (huniq x hx h)
      simp [hgood x hx hxn]
  have hkeys := scanPacks_keys listing hdir hdot
  have hnamesub : ((listing.filter fun e =>
      isOkB (load_manifest e.pack.metadata)).map (·.name)).Sublist
        (listing.map (·.name)) :=
    (List.filter_sublist listing).map _
  have hkeysnodup : ((scanPacks listing).1.map (·.1)).Nodup := by
    rw [hkeys]; exact hnodup.sublist hnamesub
  refine ⟨?_, ?_, ?_, ?_⟩
  · show evErrors (scanPacks listing).2.2 = _
    rw [scanPacks_errors listing hdir hdot, hbadfilter]
    simp [hbad, errMsg]
  · intro n
    show n ∈ ((scanPacks listing).1.map (·.1)).insertionSort nameLe ↔ _
    rw [List.mem_insertionSort, hkeys]
    simp only [List.mem_map, List.mem_filter]
    constructor
    · rintro ⟨e, ⟨he, hok⟩, hn⟩
      refine ⟨⟨e, he, hn⟩, fun h => ?_⟩
      have : e = bad := huniq e he (hn.trans h)
      rw [this, hbad] at hok; cases hok
    · rintro ⟨⟨e, he, hn⟩, hnb⟩
      exact ⟨e, ⟨he, hgood e he fun h => hnb (hn ▸ h)⟩, hn⟩
  · show (((scanPacks listing).1.map (·.1)).insertionSort nameLe).length = _
    rw [List.length_insertionSort, hkeys, List.length_map]
    have hsplit := List.length_eq_length_filter_add
      (l := listing) (fun e => isOkB (load_manifest e.pack.metadata))
    rw [hbadfilter] at hsplit
    simp only [List.length_cons, List.length_nil] at hsplit
    omega
  · show (((scanPacks listing).1.map (·.1)).insertionSort nameLe).Nodup
    exact (List.perm_insertionSort nameLe _).symm.nodup hkeysnodup

/-- Claim C4 witness: two pack directories, `alpha` valid and `broken`
with a missing `metadata.json`: reload emits exactly one ERROR event
(with the "Manifest not found" message) and `list_packs` is exactly
`["alpha"]`. -/
theorem C4_reload_isolation_witness :
    evErrors (reload demoListing .missing).2 =
      [⟨"broken", .error, some "Manifest not found", none⟩]
    ∧ ("alpha" ∈ list_packs (reload demoListing .missing).1
        ↔ ((∃ e ∈ demoListing, e.name = "alpha") ∧ "alpha" ≠ "broken"))
    ∧ (list_packs (reload demoListing .missing).1).length = demoListing.length - 1 := by
  have h := C4_reload_isolation demoListing .missing ⟨"broken", true, demoBadPack⟩
    "Manifest not found" (by decide) (by decide) (by decide) (by decide) rfl
    (by decide)
  exact ⟨h.1, h.2.1 "alpha", h.2.2.1⟩

end MemeMaker
